import Mathlib

/-!
# Shallow embedding of gopigz (src/main.go)

This file embeds the pipeline of `src/main.go` — a streaming, block-parallel
flate compressor — and settles the specification claims against it.

Modelling conventions:

* Bytes are `Nat` values; byte buffers are `List Nat`.  The input stream
  (`os.Stdin`) is an explicit `List Nat` argument.
* The concurrent pipeline (reader goroutine → compress goroutine → main loop,
  with the checksum goroutine fed over an unbuffered channel) is embedded by
  its sequential interleaving semantics: each channel handoff is processed at
  the moment it is sent.  Stage order and per-stage data flow are preserved
  exactly; scheduling nondeterminism (data races) is outside the model.
* `bufio.Reader.Read` into the 128 KiB `inputBuffer` is idealised as a
  deterministic full read: it returns `min remaining BLOCK_SIZE` bytes, or
  `(0, io.EOF)` on an exhausted stream, writing the bytes at the front of the
  buffer and leaving the rest of the buffer unchanged.  `reader.Peek(1)`
  returns the error `io.EOF` exactly when the stream is exhausted (and in
  particular it never returns `bufio.ErrNegativeCount`).
* Machine integers: `nTotalBytes` is a Go `uint32`, so its accumulation is
  taken `% 2^32`.
-/

namespace gopigz

/-- `BLOCK_SIZE = 128 * 1024` — src/main.go line 21. -/
def BLOCK_SIZE : Nat := 128 * 1024

/-- `TRAILER_SIZE = 8` — src/main.go line 23. -/
def TRAILER_SIZE : Nat := 8

/-- The `block` struct — src/main.go lines 241-249.  `RawData` records the
contents of the (shared) `inputBuffer` at the moment the block is built; the
aliasing of the `RawData` of all blocks to the single buffer is reasoned about
separately (see `c9_raw_buffer_mutated_after_handoff`).  The `Err` field of
the Go struct is never assigned anywhere in the source and is omitted. -/
structure block where
  Index : Nat
  LastBlock : Bool
  RawData : List Nat
  CompressedData : List Nat
  nRawBytes : Nat
  nCompressedBytes : Nat
deriving Repr, DecidableEq

/-- The body of the `for err != io.EOF` loop of `read` — src/main.go lines
99-124.  State: `rem` is the portion of stdin not yet consumed, `buf` is the
current contents of `inputBuffer`, `numBlocks` the running block counter.

Each iteration performs, in source order:
* `numBytes, err = reader.Read(inputBuffer)` — writes
  `min rem.length BLOCK_SIZE` bytes at the front of the buffer (no bytes and
  `err = io.EOF` on an exhausted stream, with the buffer unchanged);
* `_, err = reader.Peek(1)` — `err = io.EOF` iff the stream is now exhausted;
* `isLastBlock` is set only when `err == bufio.ErrNegativeCount`, which
  `Peek(1)` never returns, so `LastBlock` is always `false`;
* builds the block (`Index = numBlocks+1`, `RawData = inputBuffer`,
  `nRawBytes = numBytes`), feeds `inputBuffer` to `checksumChan`, adds
  `numBytes` to `nTotalBytes`, and sends the block on `out`;
* the loop then repeats while the `Peek` error is not `io.EOF`. -/
def readLoop (rem buf : List Nat) (numBlocks : Nat) : List block :=
  if _h : rem = [] then
    [⟨numBlocks + 1, false, buf, [], 0, 0⟩]
  else
    if _h2 : rem.drop (min rem.length BLOCK_SIZE) = [] then
      [⟨numBlocks + 1, false,
        rem.take (min rem.length BLOCK_SIZE) ++ buf.drop (min rem.length BLOCK_SIZE),
        [], min rem.length BLOCK_SIZE, 0⟩]
    else
      ⟨numBlocks + 1, false,
        rem.take (min rem.length BLOCK_SIZE) ++ buf.drop (min rem.length BLOCK_SIZE),
        [], min rem.length BLOCK_SIZE, 0⟩ ::
      readLoop (rem.drop (min rem.length BLOCK_SIZE))
        (rem.take (min rem.length BLOCK_SIZE) ++ buf.drop (min rem.length BLOCK_SIZE))
        (numBlocks + 1)
termination_by rem.length
decreasing_by
  have hB : 0 < BLOCK_SIZE := by decide
  have hr : 0 < rem.length := List.length_pos.mpr _h
  simp only [List.length_drop]
  omega

/-- The `read` stage — src/main.go lines 88-129.  `inputBuffer` starts as
`make([]byte, BLOCK_SIZE)`, i.e. `BLOCK_SIZE` zero bytes.  Line 98 performs
`numBytes, err := reader.Read(inputBuffer)` whose results are overwritten by
the first statement of the loop body before being used: the first chunk of
input is consumed here and then discarded.  If that first read already
returns `io.EOF` (empty input) the loop never runs and no block is emitted. -/
def read (input : List Nat) : List block :=
  if input = [] then []
  else
    readLoop (input.drop (min input.length BLOCK_SIZE))
      (input.take (min input.length BLOCK_SIZE) ++
        (List.replicate BLOCK_SIZE 0).drop (min input.length BLOCK_SIZE))
      0

/-- The byte buffers sent to `checksumChan` — src/main.go line 119: the read
stage sends the whole `inputBuffer` (all `BLOCK_SIZE` bytes), not
`inputBuffer[:numBytes]`, one send per emitted block, in emission order. -/
def checksumFeed (input : List Nat) : List (List Nat) :=
  (read input).map block.RawData

/-- The raw byte buffers consumed by the compress stage — src/main.go line
145: `io.Copy(flateWriter, bytes.NewReader(b.RawData))` copies all of
`b.RawData` (the whole `BLOCK_SIZE`-byte buffer) into the codec context. -/
def compressFeed (input : List Nat) : List (List Nat) :=
  (read input).map block.RawData

/-- The final value of the `uint32` global `nTotalBytes` — src/main.go lines
42 and 120: `nTotalBytes += uint32(numBytes)` once per loop iteration. -/
def nTotalBytes (input : List Nat) : Nat :=
  (read input).foldl (fun acc b => (acc + b.nRawBytes) % 4294967296) 0

/-- The reversed CRC-32/IEEE polynomial `0xEDB88320` used by
`crc32.NewIEEE()` (hash/crc32 with the IEEE polynomial, reflected form). -/
def crc32Poly : Nat := 0xEDB88320

/-- One bit step of the reflected CRC-32: shift right, conditionally xor the
polynomial. -/
def crc32Step (r : Nat) : Nat :=
  if r % 2 = 1 then Nat.xor (r / 2) crc32Poly else r / 2

/-- Absorb one byte into the CRC-32 register. -/
def crc32Byte (r b : Nat) : Nat :=
  crc32Step^[8] (Nat.xor r (b % 256))

/-- CRC-32/IEEE of a byte sequence: initial register `0xFFFFFFFF`, final xor
`0xFFFFFFFF` — the digest `crc32.NewIEEE()` accumulates via `Write` and
returns from `Sum32()`. -/
def crc32 (data : List Nat) : Nat :=
  Nat.xor (data.foldl crc32Byte 0xFFFFFFFF) 0xFFFFFFFF

/-- Modelled from the spec: the Block Codec (`compress/flate`, external to
this repository) is an external collaborator per spec §1/§2 — "the
entropy-coding algorithm itself [is] treated as an opaque block codec
capability supplied by a library".  It is modelled by its defining law: a
compression unit decodes back to exactly the byte sequence written into the
codec context, so the unit is represented by that byte sequence itself. -/
def deflate (raw : List Nat) : List Nat := raw

/-- Modelled from the spec: decoding one self-terminating compressed unit of
the external Block Codec recovers the bytes fed to its context (round-trip
law, spec §2 and §8). -/
def inflate (unitBytes : List Nat) : List Nat := unitBytes

/-- One iteration of the compress stage loop — src/main.go lines 137-165:
feed all of `b.RawData` into a fresh flate context, populate
`CompressedData` from the in-memory buffer, and set
`b.nCompressedBytes = int(n)` where `n` is the count returned by `io.Copy`,
i.e. the number of raw bytes copied. -/
def compressBlock (b : block) : block :=
  ⟨b.Index, b.LastBlock, b.RawData, deflate b.RawData, b.nRawBytes, b.RawData.length⟩

/-- The compress stage — src/main.go lines 132-170: blocks are consumed and
re-emitted in arrival order, one output per input. -/
def compress (bs : List block) : List block :=
  bs.map compressBlock

/-- The flush/close operations the compress stage performs on the flate
context of one block. -/
structure compressEvent where
  index : Nat
  flushed : Bool
  closed : Bool
deriving Repr, DecidableEq

/-- The codec operations performed per block — src/main.go lines 150-158:
`flateWriter.Flush()` is called iff `!b.LastBlock`; `flateWriter.Close()`
is called unconditionally. -/
def compressEvents (bs : List block) : List compressEvent :=
  bs.map (fun b => ⟨b.Index, !b.LastBlock, true⟩)

/-- Decompressing the concatenation of all emitted block units (ignoring the
trailer): by the codec round-trip law each unit decodes to the bytes fed to
its context, so the result is the concatenation of the per-block
`CompressedData` decodings. -/
def pipelineRoundTrip (input : List Nat) : List Nat :=
  ((compress (read input)).map (fun b => inflate b.CompressedData)).flatten

/-- Default `bufio.Writer` buffer size (4096 bytes), as allocated by
`bufio.NewWriter(os.Stdout)`. -/
def bufioDefaultBufSize : Nat := 4096

/-- The `write` stage for one block — src/main.go lines 205-210: a fresh
`bufio.NewWriter(os.Stdout)` receives `b.CompressedData` and is never
flushed.  `bufio.Writer.Write` forwards the payload straight to the
underlying sink only when it exceeds the buffer capacity (large write on an
empty buffer); otherwise the bytes stay in the buffer of the writer and are lost
when the writer is dropped without `Flush`.  The result is the bytes that
actually reach `os.Stdout`. -/
def write (b : block) : List Nat :=
  if bufioDefaultBufSize < b.CompressedData.length then b.CompressedData else []

/-- Little-endian serialisation of the low 32 bits of a value, as produced by
`binary.LittleEndian.PutUint32`. -/
def le32 (x : Nat) : List Nat :=
  [x % 256, x / 256 % 256, x / 65536 % 256, x / 16777216 % 256]

/-- `writeTrailer` — src/main.go lines 191-202: an 8-byte buffer, bytes
[0:4) = little-endian `checksum.Sum32()`, bytes [4:8) = little-endian
`nTotalBytes`, written to a fresh buffered writer which IS flushed, so all
8 bytes reach `os.Stdout`. -/
def writeTrailer (digest count : Nat) : List Nat :=
  le32 digest ++ le32 count

/-- The trailer the pipeline writes for a given stdin: the digest is the
CRC-32 of everything fed to the checksum goroutine, the count is the final
`nTotalBytes` — src/main.go lines 55-63, 73, 191-202. -/
def pipelineTrailer (input : List Nat) : List Nat :=
  writeTrailer (crc32 (checksumFeed input).flatten) (nTotalBytes input)

/-- Modelled from the spec: the claimed block count, "the number of emitted
blocks equals ⌈len(input)/BLOCK_SIZE⌉" (spec §8), as a ceiling division. -/
def specBlockCount (len : Nat) : Nat :=
  (len + (BLOCK_SIZE - 1)) / BLOCK_SIZE

/-! ## Evaluation lemmas for the read stage -/

lemma readLoop_nil (buf : List Nat) (n : Nat) :
    readLoop [] buf n = [⟨n + 1, false, buf, [], 0, 0⟩] := by
  rw [readLoop]
  simp

lemma readLoop_last (rem buf : List Nat) (n : Nat) (h : rem ≠ [])
    (h2 : rem.drop (min rem.length BLOCK_SIZE) = []) :
    readLoop rem buf n =
      [⟨n + 1, false,
        rem.take (min rem.length BLOCK_SIZE) ++ buf.drop (min rem.length BLOCK_SIZE),
        [], min rem.length BLOCK_SIZE, 0⟩] := by
  rw [readLoop]
  simp [h, h2]

lemma readLoop_cons (rem buf : List Nat) (n : Nat) (h : rem ≠ [])
    (h2 : rem.drop (min rem.length BLOCK_SIZE) ≠ []) :
    readLoop rem buf n =
      ⟨n + 1, false,
        rem.take (min rem.length BLOCK_SIZE) ++ buf.drop (min rem.length BLOCK_SIZE),
        [], min rem.length BLOCK_SIZE, 0⟩ ::
      readLoop (rem.drop (min rem.length BLOCK_SIZE))
        (rem.take (min rem.length BLOCK_SIZE) ++ buf.drop (min rem.length BLOCK_SIZE))
        (n + 1) := by
  rw [readLoop]
  simp [h, h2]

/-- On the one-byte input `[1]` the first read (line 98) consumes the byte
and the loop then emits a single block recording zero raw bytes, whose
`RawData` is the full buffer: the lost byte followed by the original
zero fill. -/
lemma read_one :
    read [1] = [⟨1, false, 1 :: List.replicate (BLOCK_SIZE - 1) 0, [], 0, 0⟩] := by
  have h1 : min ([1] : List Nat).length BLOCK_SIZE = 1 := by
    simp [BLOCK_SIZE]
  unfold read
  simp only [h1, if_neg (List.cons_ne_nil 1 ([] : List Nat))]
  simp [readLoop_nil, List.drop_replicate]

lemma min_one_B : min 1 BLOCK_SIZE = 1 := by decide

/-- On an input one byte longer than `BLOCK_SIZE` the read stage emits a
single block: the first `BLOCK_SIZE` bytes are consumed by the discarded
pre-loop read, the single loop iteration reads the one remaining byte into
the front of the buffer, and `Peek` then reports end of stream. -/
lemma read_replicate_succ :
    read (List.replicate (BLOCK_SIZE + 1) 0) =
      [⟨1, false, 0 :: List.replicate (BLOCK_SIZE - 1) 0, [], 1, 0⟩] := by
  have hne : List.replicate (BLOCK_SIZE + 1) (0 : Nat) ≠ [] := by simp
  have hmin : min (List.replicate (BLOCK_SIZE + 1) (0 : Nat)).length BLOCK_SIZE
      = BLOCK_SIZE := by
    simp only [List.length_replicate]
    omega
  have e1 : BLOCK_SIZE + 1 - BLOCK_SIZE = 1 := by omega
  have e2 : min BLOCK_SIZE (BLOCK_SIZE + 1) = BLOCK_SIZE := by omega
  have e3 : BLOCK_SIZE - BLOCK_SIZE = 0 := by omega
  unfold read
  rw [if_neg hne, hmin]
  simp only [List.drop_replicate, List.take_replicate, e1, e2, e3,
    List.replicate_zero, List.append_nil, List.replicate_one]
  rw [readLoop_last [0] _ 0 (by simp) (by simp [min_one_B])]
  simp [min_one_B, List.drop_replicate]

/-- On an input of `2 * BLOCK_SIZE` zero bytes followed by a single one byte,
the loop runs twice: the two emitted blocks record different contents of the
shared `inputBuffer` (all zeros, then the trailing one byte at the front). -/
lemma read_two_blocks :
    read (List.replicate (2 * BLOCK_SIZE) 0 ++ [1]) =
      [⟨1, false, List.replicate BLOCK_SIZE 0, [], BLOCK_SIZE, 0⟩,
       ⟨2, false, 1 :: List.replicate (BLOCK_SIZE - 1) 0, [], 1, 0⟩] := by
  have hB : 0 < BLOCK_SIZE := by decide
  have hne : List.replicate (2 * BLOCK_SIZE) (0 : Nat) ++ [1] ≠ [] := by simp
  have hmin : min (List.replicate (2 * BLOCK_SIZE) (0 : Nat) ++ [1]).length BLOCK_SIZE
      = BLOCK_SIZE := by
    rw [List.length_append, List.length_replicate, List.length_singleton]
    omega
  have e1 : 2 * BLOCK_SIZE - BLOCK_SIZE = BLOCK_SIZE := by omega
  have e2 : min BLOCK_SIZE (2 * BLOCK_SIZE) = BLOCK_SIZE := by omega
  have e3 : BLOCK_SIZE - BLOCK_SIZE = 0 := by omega
  have hmin2 : min (List.replicate BLOCK_SIZE (0 : Nat) ++ [1]).length BLOCK_SIZE
      = BLOCK_SIZE := by
    rw [List.length_append, List.length_replicate, List.length_singleton]
    omega
  have hdrop2 : (List.replicate BLOCK_SIZE (0 : Nat) ++ [1]).drop
      (min (List.replicate BLOCK_SIZE (0 : Nat) ++ [1]).length BLOCK_SIZE) = [1] := by
    rw [hmin2, List.drop_append_of_le_length (by rw [List.length_replicate]),
      List.drop_replicate, e3, List.replicate_zero, List.nil_append]
  have htake2 : (List.replicate BLOCK_SIZE (0 : Nat) ++ [1]).take
      (min (List.replicate BLOCK_SIZE (0 : Nat) ++ [1]).length BLOCK_SIZE)
      = List.replicate BLOCK_SIZE 0 := by
    rw [hmin2, List.take_append_of_le_length (by rw [List.length_replicate]),
      List.take_replicate, min_self]
  unfold read
  rw [if_neg hne, hmin]
  rw [List.drop_append_of_le_length (by rw [List.length_replicate]; omega),
    List.take_append_of_le_length (by rw [List.length_replicate]; omega)]
  rw [List.drop_replicate, List.take_replicate, List.drop_replicate, e1, e2, e3,
    List.replicate_zero, List.append_nil]
  rw [readLoop_cons _ _ _ (by simp) (by rw [hdrop2]; simp)]
  rw [hdrop2, htake2, hmin2]
  simp only [List.drop_replicate, e3, List.replicate_zero, List.append_nil]
  rw [readLoop_last [1] _ 1 (by simp) (by simp [min_one_B])]
  simp [min_one_B, List.drop_replicate]

lemma read_nil : read [] = [] := by
  unfold read
  simp

lemma nTotalBytes_one : nTotalBytes [1] = 0 := by
  simp [nTotalBytes, read_one]

/-! ## Claim theorems -/

/-- Claim C1 (code_bug): the round-trip law fails.  Evaluating the pipeline at
the one-byte input `[1]`: the pre-loop read consumes and discards the byte,
the single emitted block feeds the whole 128 KiB buffer (the lost byte
followed by the zero fill) to the codec, so decompressing the concatenation
of the emitted block units yields 131072 bytes, not the original input. -/
theorem c1_roundtrip_fails_on_one_byte_input :
    pipelineRoundTrip [1] = 1 :: List.replicate (BLOCK_SIZE - 1) 0 ∧
    pipelineRoundTrip [1] ≠ [1] := by
  have h : pipelineRoundTrip [1] = 1 :: List.replicate (BLOCK_SIZE - 1) 0 := by
    unfold pipelineRoundTrip compress
    rw [read_one, List.map_cons, List.map_nil, List.map_cons, List.map_nil,
      List.flatten_cons, List.flatten_nil, List.append_nil]
    rfl
  refine ⟨h, ?_⟩
  rw [h]
  intro hc
  have hl := congrArg List.length hc
  rw [List.length_cons, List.length_replicate, List.length_singleton] at hl
  have hBv : BLOCK_SIZE = 131072 := rfl
  omega

/-- Claim C2 (code_bug): evaluating the read stage.  On input `[1]` one block
is emitted and its last-block flag is `false` (no block ever carries the
marker, because `Peek` reports `io.EOF`, never `bufio.ErrNegativeCount`).
On an input of `BLOCK_SIZE + 1` zero bytes the stage emits one block while
the claimed count `⌈len/BLOCK_SIZE⌉` is two (the pre-loop read swallows the
first chunk). -/
theorem c2_block_count_and_last_flag_wrong :
    (read [1]).map block.LastBlock = [false] ∧
    (read (List.replicate (BLOCK_SIZE + 1) 0)).length = 1 ∧
    specBlockCount (List.replicate (BLOCK_SIZE + 1) (0 : Nat)).length = 2 := by
  refine ⟨by rw [read_one]; rfl, by rw [read_replicate_succ]; rfl, ?_⟩
  rw [List.length_replicate]
  decide

/-- Claim C3 (code_bug): evaluating the trailer byte count at the one-byte
input `[1]`: the global `nTotalBytes` only accumulates `numBytes` of the
loop reads, so it ends at 0 although the input length is 1. -/
theorem c3_trailer_byte_count_wrong :
    nTotalBytes [1] = 0 ∧ ([1] : List Nat).length = 1 :=
  ⟨nTotalBytes_one, rfl⟩

/-- Claim C4 (code_bug): evaluating the checksum feed at the one-byte input
`[1]`: the read stage sends the whole 128 KiB `inputBuffer` to the checksum
goroutine (one send for the one emitted block), although the read of that block
returned 0 bytes and the entire input is a single byte — the accumulator
does not process the raw bytes of the blocks at their true length. -/
theorem c4_checksum_feed_not_true_raw_bytes :
    checksumFeed [1] = [1 :: List.replicate (BLOCK_SIZE - 1) 0] ∧
    (checksumFeed [1]).map List.length = [BLOCK_SIZE] ∧
    (read [1]).map block.nRawBytes = [0] := by
  have hfeed : checksumFeed [1] = [1 :: List.replicate (BLOCK_SIZE - 1) 0] := by
    rw [checksumFeed, read_one]
    rfl
  refine ⟨hfeed, ?_, by rw [read_one]; rfl⟩
  rw [hfeed]
  have hB : 0 < BLOCK_SIZE := by decide
  rw [List.map_cons, List.map_nil, List.length_cons, List.length_replicate,
    Nat.sub_add_cancel hB]

/-- Claim C5 (code_bug): evaluating the compress stage at the one-byte input
`[1]`: the single emitted block is the final block of the stream (highest
index 1), yet its codec context receives a sync flush before the close,
because the reader never sets the last-block flag. -/
theorem c5_final_block_flush_not_skipped :
    compressEvents (read [1]) = [⟨1, true, true⟩] ∧
    (read [1]).map block.Index = [1] := by
  rw [read_one]
  exact ⟨rfl, rfl⟩

/-- Claim C6 (code_bug): evaluating the per-block consumption at the one-byte
input `[1]`: the read of the emitted block returned 0 bytes (`nRawBytes = 0`),
yet both the checksum accumulator and the compress stage consume all
`BLOCK_SIZE` bytes of the buffer — stale padding included. -/
theorem c6_padding_forwarded_not_true_length :
    (compressFeed [1]).map List.length = [BLOCK_SIZE] ∧
    (checksumFeed [1]).map List.length = [BLOCK_SIZE] ∧
    (read [1]).map block.nRawBytes = [0] := by
  have hB : 0 < BLOCK_SIZE := by decide
  have hlen : ((1 :: List.replicate (BLOCK_SIZE - 1) (0 : Nat)) :: []).map List.length
      = [BLOCK_SIZE] := by
    rw [List.map_cons, List.map_nil, List.length_cons, List.length_replicate,
      Nat.sub_add_cancel hB]
  refine ⟨?_, ?_, by rw [read_one]; rfl⟩
  · rw [compressFeed, read_one]
    exact hlen
  · rw [checksumFeed, read_one]
    exact hlen

/-- Claim C7 (code_bug): `write` hands `CompressedData` to a fresh
`bufio.Writer` and never flushes it, so a block whose compressed payload
fits in the 4096-byte buffer — here a 100-byte payload — never reaches the
output sink at all. -/
theorem c7_write_loses_small_compressed_blocks :
    write ⟨1, true, [], List.replicate 100 7, 0, 100⟩ = [] ∧
    List.replicate 100 (7 : Nat) ≠ [] := by
  constructor
  · rw [write]
    rw [if_neg (by decide)]
  · simp

/-- Claim C8 (code_bug): evaluating the trailer at the one-byte input `[1]`:
bytes [4:8) of the trailer are the little-endian encoding of 0, but the
total raw byte count of the input is 1, whose encoding is `[1, 0, 0, 0]`
(and the digest in bytes [0:4) is computed over the 128 KiB buffer contents,
not over the raw input). -/
theorem c8_trailer_fields_wrong :
    (pipelineTrailer [1]).length = 8 ∧
    (pipelineTrailer [1]).drop 4 = le32 0 ∧
    le32 ([1] : List Nat).length = [1, 0, 0, 0] ∧
    le32 0 = [0, 0, 0, 0] := by
  have ht : pipelineTrailer [1] =
      le32 (crc32 (checksumFeed [1]).flatten) ++ le32 0 := by
    rw [pipelineTrailer, nTotalBytes_one, writeTrailer]
  refine ⟨?_, ?_, by decide, by decide⟩
  · rw [ht, le32, le32]
    rfl
  · rw [ht, le32, le32]
    rfl

/-- Claim C9 (code_bug): all emitted blocks alias the single shared
`inputBuffer`, and the loop keeps overwriting it after each handoff.  On the
input of `2 * BLOCK_SIZE` zeros followed by a one byte, the two emitted
blocks observe different buffer contents: the bytes block 1 referred to at
handoff are no longer intact once block 2 has been read, so the raw buffer
is not frozen after handoff. -/
theorem c9_raw_buffer_mutated_after_handoff :
    (read (List.replicate (2 * BLOCK_SIZE) 0 ++ [1])).map block.RawData =
      [List.replicate BLOCK_SIZE 0, 1 :: List.replicate (BLOCK_SIZE - 1) 0] ∧
    List.replicate BLOCK_SIZE (0 : Nat) ≠ 1 :: List.replicate (BLOCK_SIZE - 1) 0 := by
  constructor
  · rw [read_two_blocks]
    rfl
  · intro h
    have hB : BLOCK_SIZE = (BLOCK_SIZE - 1) + 1 := by decide
    nth_rewrite 1 [hB] at h
    rw [List.replicate_succ] at h
    simp at h

/-- Claim C10 (confirmed): on the empty input the pre-loop read immediately
reports `io.EOF`, so the read stage emits zero blocks (not one zero-length
last block), and the pipeline still writes an 8-byte trailer whose
byte-count field (bytes [4:8), little-endian) is 0. -/
theorem c10_empty_input_zero_blocks_and_zero_trailer_count :
    read [] = [] ∧
    (pipelineTrailer []).length = 8 ∧
    (pipelineTrailer []).drop 4 = le32 0 := by
  have hr : read [] = [] := read_nil
  have hn : nTotalBytes [] = 0 := by
    rw [nTotalBytes, hr]
    rfl
  have ht : pipelineTrailer [] = le32 (crc32 []) ++ le32 0 := by
    rw [pipelineTrailer, hn, writeTrailer, checksumFeed, hr]
    rfl
  refine ⟨hr, ?_, ?_⟩
  · rw [ht, le32, le32]
    rfl
  · rw [ht, le32, le32]
    rfl

end gopigz
